import Mathlib

/-!
Shallow embedding of the test-run execution and scoring engine of
`json-llm-tester` (`backend/app/api/api_test_runs.py`): the per-case
executor `run_single_test_case`, the background orchestrator
`execute_test_run_background`, and the per-model aggregator
`get_test_run_summary_by_llm`.

External effects (the LLM gateway, the JSON parser, the jsonschema
checker, the database) are represented by oracle inputs describing the
outcome of each external interaction; the control flow, the stored
fields and the aggregation arithmetic are translated from the source.
-/

namespace JsonLLMTester

/-- JSON values, as stored in mock-data items and schema documents. -/
inductive Json where
  | null : Json
  | bool (b : Bool) : Json
  | num (n : Int) : Json
  | str (s : String) : Json
  | arr (elems : List Json) : Json
  | obj (fields : List (String × Json)) : Json

/-- One normalized validation-violation record, as appended to
`validation_errors_list` in `run_single_test_case`
(fields `message`, `path`, `validator`). -/
structure VErr where
  message : String
  path : List String
  validator : String
deriving DecidableEq, Repr

/-- The `TestResult` row as constructed at the end of
`run_single_test_case` (lines 114-125 of `api_test_runs.py`). -/
structure TestResult where
  test_run_id : Nat
  target_llm_model_id : String
  mock_input_data_used : Json
  llm_raw_output : Option String
  parse_status : Option Bool
  schema_compliance_status : Option String
  validation_errors : Option (List VErr)
  execution_time_ms : Option ℚ
  tokens_used : Option Nat
  error_message : Option String

/-- Wall-clock durations (in seconds, matching `time.monotonic`) of the
three phases of one case between the two `monotonic()` readings:
prompt construction, the awaited LLM call, and the post-call
processing (response probing, parsing, schema validation). -/
structure Phases where
  build : ℚ
  call : ℚ
  post : ℚ
deriving DecidableEq, Repr

/-- Outcome of the external interactions of one test case, determining
which branch of `run_single_test_case`'s `try` body is taken:
the LLM service raised (`except llm_service.LLMServiceError`), some
other exception was raised (`except Exception`), the response carried
no message content, the content failed `json.loads`
(`except json.JSONDecodeError`), `jsonschema.validate` passed, it
raised a `ValidationError`, or it raised some other exception
(`except Exception as sve`, a malformed schema).  Content-bearing
outcomes carry the raw text as it stands after fence stripping,
which is the value stored in `llm_raw_output`. -/
inductive CaseOutcome where
  | llmServiceError (msg : String)
  | unexpectedError (msg : String)
  | noContent
  | parseFail (raw : String)
  | validationPass (raw : String)
  | validationFail (raw : String) (msg : String) (path : List String) (validator : String)
  | schemaError (raw : String) (msg : String)
deriving DecidableEq, Repr

/-- Elapsed seconds between `start_time = pytime.monotonic()` (line 36,
before prompt construction) and `end_time = pytime.monotonic()`
(line 109, after the whole `try` block): the post-call processing
phase only elapses on outcomes where content was returned. -/
def elapsedSeconds (t : Phases) : CaseOutcome → ℚ
  | .llmServiceError _ => t.build + t.call
  | .unexpectedError _ => t.build + t.call
  | .noContent => t.build + t.call
  | _ => t.build + t.call + t.post

/-- `execution_time_ms = (end_time - start_time) * 1000` (line 110). -/
def executionTimeMs (t : Phases) (o : CaseOutcome) : ℚ :=
  elapsedSeconds t o * 1000

/-- The pure content of `run_single_test_case`: given the outcome of the
external interactions, the `TestResult` row it constructs and persists.
Branch per branch from the source: a service error or unexpected
exception sets only `error_message`; an empty response sets the
no-content message; a parse failure sets `parse_status = False` and the
"N/A" compliance marker; a validation pass sets `"Pass"` and leaves the
error list empty (stored as `None`); a `ValidationError` sets `"Fail"`
with one `{message, path, validator}` record; any other validation
exception (malformed schema) sets `"Fail"` with one
`{message, [], "schema_error"}` record.  `tokens_used` is never set
(placeholder in the source); `execution_time_ms` is always set. -/
def runSingleTestCase (test_run_id : Nat) (target_llm_id : String)
    (mock_content : Json) (o : CaseOutcome) (t : Phases) : TestResult :=
  { test_run_id := test_run_id
    target_llm_model_id := target_llm_id
    mock_input_data_used := mock_content
    llm_raw_output :=
      match o with
      | .llmServiceError _ => none
      | .unexpectedError _ => none
      | .noContent => none
      | .parseFail raw => some raw
      | .validationPass raw => some raw
      | .validationFail raw _ _ _ => some raw
      | .schemaError raw _ => some raw
    parse_status :=
      match o with
      | .llmServiceError _ => none
      | .unexpectedError _ => none
      | .noContent => none
      | .parseFail _ => some false
      | .validationPass _ => some true
      | .validationFail _ _ _ _ => some true
      | .schemaError _ _ => some true
    schema_compliance_status :=
      match o with
      | .llmServiceError _ => none
      | .unexpectedError _ => none
      | .noContent => none
      | .parseFail _ => some "N/A (not valid JSON)"
      | .validationPass _ => some "Pass"
      | .validationFail _ _ _ _ => some "Fail"
      | .schemaError _ _ => some "Fail"
    validation_errors :=
      match o with
      | .validationFail _ msg path validator => some [⟨msg, path, validator⟩]
      | .schemaError _ msg => some [⟨msg, [], "schema_error"⟩]
      | _ => none
    execution_time_ms := some (executionTimeMs t o)
    tokens_used := none
    error_message :=
      match o with
      | .llmServiceError msg => some ("LLM Service Error: " ++ msg)
      | .unexpectedError msg => some ("Unexpected error during test case: " ++ msg)
      | .noContent => some "LLM did not return any content."
      | _ => none }

/-- The mutable fields of the `TestRun` row touched by the background
driver: lifecycle status, whether the start and completion timestamps
have been written, and the error message written on failure. -/
structure TestRun where
  id : Nat
  status : String
  started_at_set : Bool
  completed_at_set : Bool
  error_message : Option String
deriving DecidableEq, Repr

/-- A `TestRun` row as created by `create_and_initiate_test_run`:
initial status `"queued"`, no timestamps written yet. -/
def createTestRun (id : Nat) : TestRun :=
  ⟨id, "queued", false, false, none⟩

/-- The item ids captured at run creation:
`mock_data_item_ids = [item.id for item in mock_data_prompt.generated_items]`,
over the mock-data table as it stands at creation time. -/
def generatedItemIds (table : List (Nat × Json)) : List Nat :=
  table.map (fun e => e.1)

/-- The `SELECT ... WHERE MockDataItem.id IN mock_data_item_ids`
performed at the start of the background task (lines 142-144), over the
mock-data table as it stands at that moment. -/
def fetchItems (table : List (Nat × Json)) (ids : List Nat) : List (Nat × Json) :=
  table.filter (fun e => decide (e.1 ∈ ids))

/-- Behavior of the external world for one (model, input) pairing: the
outcome of the case's external interactions, the phase durations, and
whether the result-persistence step (the `AsyncSessionFactory` block at
lines 113-127, which sits outside the routine's internal `try`) raises.
That block is the only part of `run_single_test_case` that can raise to
its caller. -/
structure CaseBehavior where
  outcome : CaseOutcome
  phases : Phases
  storeError : Option String
deriving DecidableEq, Repr

/-- The cross-product order of the fan-out loop:
`for target_llm_id in target_llm_ids: for mock_item in mock_data_items`. -/
def pairsOf (llm_ids : List String) (items : List (Nat × Json)) :
    List (String × Nat × Json) :=
  llm_ids.flatMap (fun l => items.map (fun it => (l, it)))

/-- The result row produced for one pairing. -/
def caseResult (rid : Nat) (p : String × Nat × Json) (b : CaseBehavior) : TestResult :=
  runSingleTestCase rid p.1 p.2.2 b.outcome b.phases

/-- The inner fan-out loop (lines 158-169): processes the pairings in
order, persisting one result per pairing.  There is no per-pairing
exception handler around the `await run_single_test_case(...)` call, so
the first pairing whose persistence step raises aborts the loop: the
results stored so far survive (each case commits in its own session)
and the exception message escapes to the driver's `except` block. -/
def runLoop (rid : Nat) (beh : Nat → CaseBehavior) :
    List (String × Nat × Json) → Nat → List TestResult × Option String
  | [], _ => ([], none)
  | p :: rest, idx =>
    match (beh idx).storeError with
    | some msg => ([], some msg)
    | none =>
      let out := runLoop rid beh rest (idx + 1)
      (caseResult rid p (beh idx) :: out.1, out.2)

/-- The results of a fully processed pairing list, in fan-out order. -/
def loopResults (rid : Nat) (beh : Nat → CaseBehavior) :
    List (String × Nat × Json) → Nat → List TestResult
  | [], _ => []
  | p :: rest, idx => caseResult rid p (beh idx) :: loopResults rid beh rest (idx + 1)

/-- The number of pairings on which the driver invoked
`run_single_test_case`, in fan-out order.  The pairing whose
persistence step raises IS attempted — its case executes in full
(prompt built, LLM called, response parsed and validated) before the
store at lines 113-127 raises — so it counts, even though no result is
stored for it and the loop aborts right after it. -/
def attemptedCount (beh : Nat → CaseBehavior) :
    List (String × Nat × Json) → Nat → Nat
  | [], _ => 0
  | _ :: rest, idx =>
    match (beh idx).storeError with
    | some _ => 1
    | none => 1 + attemptedCount beh rest (idx + 1)

/-- Final state left by the background driver: the run row and the
persisted results. -/
structure RunOutcome where
  run : TestRun
  results : List TestResult

/-- `execute_test_run_background` (lines 130-182), in source order:
fetch the mock items by the captured ids from the current table; if
none are found a `ValueError` is raised — since `test_run_obj` is not
yet in scope, the `if 'test_run_obj' in locals()` guards in both the
`except` and the `finally` block leave the run row untouched.  Then
fetch the run row (`runFound` models `db.get` succeeding); if it is
missing the task returns, again leaving the row untouched.  Otherwise
the driver sets status `"running"` with the start timestamp, runs the
fan-out loop, and sets status `"completed"`, or — if an exception
escaped the loop — status `"failed"` with the exception message; in
both of these cases the `finally` block sets the completion
timestamp. -/
def executeTestRunBackground (table : List (Nat × Json)) (run0 : TestRun)
    (runFound : Bool) (item_ids : List Nat) (llm_ids : List String)
    (beh : Nat → CaseBehavior) : RunOutcome :=
  let items := fetchItems table item_ids
  if items.isEmpty then ⟨run0, []⟩
  else if !runFound then ⟨run0, []⟩
  else
    let running : TestRun :=
      { run0 with status := "running", started_at_set := true }
    let out := runLoop run0.id beh (pairsOf llm_ids items) 0
    match out.2 with
    | none =>
      ⟨{ running with status := "completed", completed_at_set := true }, out.1⟩
    | some msg =>
      ⟨{ running with
          status := "failed"
          error_message := some msg
          completed_at_set := true }, out.1⟩

/-- Rounding a rational to the nearest integer with ties to even,
modelling Python's built-in `round`. -/
def roundHalfEven (q : ℚ) : ℤ :=
  if q - ⌊q⌋ = 1 / 2 then (if ⌊q⌋ % 2 = 0 then ⌊q⌋ else ⌊q⌋ + 1) else round q

/-- Python's `round(x, 2)`: round to two decimal places. -/
def round2 (q : ℚ) : ℚ :=
  (roundHalfEven (q * 100) : ℚ) / 100

/-- The pydantic `LLMRunSummary` payload built for each model
(lines 367-375). -/
structure LLMRunSummary where
  target_llm_model_id : String
  total_tests : Nat
  successful_parses : Nat
  schema_compliant_tests : Nat
  schema_compliance_percentage : ℚ
  average_execution_time_ms : Option ℚ
  total_tokens_used : Option Nat
deriving DecidableEq, Repr

/-- The keys of the `llm_stats_temp` defaultdict in iteration order:
Python dict keys appear in first-insertion order, i.e. in order of each
model id's first occurrence among the run's results. -/
def modelIdsInOrder : List TestResult → List String
  | [] => []
  | r :: rest =>
    r.target_llm_model_id ::
      (modelIdsInOrder rest).filter (fun id => id != r.target_llm_model_id)

/-- The results accumulated into one model's stats bucket: the run's
results whose `target_llm_model_id` equals `id`, in stored order. -/
def resultsFor (id : String) (results : List TestResult) : List TestResult :=
  results.filter (fun r => r.target_llm_model_id == id)

/-- One model's aggregate (lines 346-375): `total_tests` counts the
group; `successful_parses` counts `parse_status is True`;
`schema_compliant_tests` counts `schema_compliance_status == "Pass"`;
the times and tokens lists collect the non-`None` fields;
`avg_exec_time = sum/len if nonempty else None`,
`total_tokens = sum if nonempty else None`,
`compliance_percentage = (compliant/total)*100 if total > 0 else 0.0`;
the percentage and the average are passed through `round(_, 2)`. -/
def summarizeModel (id : String) (results : List TestResult) : LLMRunSummary :=
  let rs := resultsFor id results
  let times := rs.filterMap (fun r => r.execution_time_ms)
  let tokens := rs.filterMap (fun r => r.tokens_used)
  let total := rs.length
  let compliant := (rs.filter (fun r => r.schema_compliance_status == some "Pass")).length
  { target_llm_model_id := id
    total_tests := total
    successful_parses := (rs.filter (fun r => r.parse_status == some true)).length
    schema_compliant_tests := compliant
    schema_compliance_percentage :=
      round2 (if 0 < total then (compliant : ℚ) / (total : ℚ) * 100 else 0)
    average_execution_time_ms :=
      if times.isEmpty then none else some (round2 (times.sum / (times.length : ℚ)))
    total_tokens_used := if tokens.isEmpty then none else some tokens.sum }

/-- The pydantic `TestRunOverallSummaryResponse` payload. -/
structure TestRunOverallSummaryResponse where
  test_run_id : Nat
  test_run_name : Option String
  overall_total_tests : Nat
  llm_summaries : List LLMRunSummary
deriving DecidableEq, Repr

/-- `get_test_run_summary_by_llm` (lines 307-383) once the run row was
found: with no result rows it returns the empty well-formed response
(`overall_total_tests = 0`, empty `llm_summaries`); otherwise one
summary per distinct model id in first-occurrence order, and
`overall_total_tests` accumulates the groups' `total_tests`. -/
def getTestRunSummaryByLLM (run_id : Nat) (run_name : Option String)
    (results : List TestResult) : TestRunOverallSummaryResponse :=
  if results.isEmpty then
    ⟨run_id, run_name, 0, []⟩
  else
    let ids := modelIdsInOrder results
    ⟨run_id, run_name,
     (ids.map (fun id => (summarizeModel id results).total_tests)).sum,
     ids.map (fun id => summarizeModel id results)⟩

/-- Following the claim's words, for comparison with the code: the
number of the run's results recorded for model `id`. -/
def specTotalTests (id : String) (results : List TestResult) : Nat :=
  results.countP (fun r => r.target_llm_model_id == id)

/-- Following the claim's words: the number of model `id`'s results
whose schema-compliance status is the pass value. -/
def specCompliantTests (id : String) (results : List TestResult) : Nat :=
  results.countP
    (fun r => r.target_llm_model_id == id && r.schema_compliance_status == some "Pass")

/-- Following the claim's words: the execution times recorded by model
`id`'s results (those that recorded a time). -/
def specRecordedTimes (id : String) (results : List TestResult) : List ℚ :=
  results.filterMap
    (fun r => if r.target_llm_model_id == id then r.execution_time_ms else none)

/-- Following the claim's words: the token counts recorded by model
`id`'s results, summed, or `none` when no result recorded tokens. -/
def specTokens (id : String) (results : List TestResult) : Option Nat :=
  let tk := results.filterMap
    (fun r => if r.target_llm_model_id == id then r.tokens_used else none)
  if tk = [] then none else some tk.sum

/-- Following the claim's words, WITHOUT rounding: the arithmetic mean
of the recorded times of model `id`'s results, or `none` when no result
recorded a time. -/
def specAverageMs (id : String) (results : List TestResult) : Option ℚ :=
  let ts := specRecordedTimes id results
  if ts = [] then none else some (ts.sum / (ts.length : ℚ))

/-- Python's `str.replace` on character lists, with an explicit fuel
argument for structural termination (`replaceAll` below always supplies
the text's length, which bounds the number of scan steps, so the
fuel-exhausted case is unreachable): scan left to right; wherever the
pattern is a prefix of the remaining text, emit the replacement and
skip past the match; otherwise emit one character and continue.  Every
non-overlapping occurrence, scanned left to right, is replaced. -/
def replaceAllFuel (pat rep : List Char) : Nat → List Char → List Char
  | 0, s => s
  | _ + 1, [] => []
  | fuel + 1, c :: rest =>
    if pat ≠ [] ∧ pat <+: (c :: rest) then
      rep ++ replaceAllFuel pat rep fuel ((c :: rest).drop pat.length)
    else
      c :: replaceAllFuel pat rep fuel rest

/-- `text.replace(pat, rep)` for a non-empty pattern. -/
def replaceAll (pat rep s : List Char) : List Char :=
  replaceAllFuel pat rep s.length s

/-- The placeholder token of line 47 (written with escaped braces). -/
def inputPlaceholder : List Char :=
  "\x7b\x7bINPUT_DATA\x7d\x7d".data

/-- Line 47: `master_prompt_content.replace("{{INPUT_DATA}}",
json.dumps(mock_data_item.item_content))`, with the serialized mock
input abstracted as a character list. -/
def buildFinalPrompt (master serialized : List Char) : List Char :=
  replaceAll inputPlaceholder serialized master

theorem caseResult_target (rid : Nat) (p : String × Nat × Json) (b : CaseBehavior) :
    (caseResult rid p b).target_llm_model_id = p.1 := rfl

theorem caseResult_mock (rid : Nat) (p : String × Nat × Json) (b : CaseBehavior) :
    (caseResult rid p b).mock_input_data_used = p.2.2 := rfl

theorem loopResults_length (rid : Nat) (beh : Nat → CaseBehavior) :
    ∀ (l : List (String × Nat × Json)) (idx : Nat),
      (loopResults rid beh l idx).length = l.length := by
  intro l
  induction l with
  | nil => intro idx; rfl
  | cons p rest ih => intro idx; simp [loopResults, ih]

theorem runLoop_ok (rid : Nat) (beh : Nat → CaseBehavior) :
    ∀ (l : List (String × Nat × Json)) (idx : Nat),
      (∀ i, i < l.length → (beh (idx + i)).storeError = none) →
      runLoop rid beh l idx = (loopResults rid beh l idx, none) := by
  intro l
  induction l with
  | nil => intro idx _; rfl
  | cons p rest ih =>
    intro idx h
    have h0 : (beh idx).storeError = none := by
      have := h 0 (by simp)
      simpa using this
    have hrest : ∀ i, i < rest.length → (beh (idx + 1 + i)).storeError = none := by
      intro i hi
      have e : idx + 1 + i = idx + (i + 1) := by omega
      rw [e]
      exact h (i + 1) (by simpa using Nat.succ_lt_succ hi)
    simp [runLoop, h0, ih (idx + 1) hrest, loopResults]

theorem runLoop_fail (rid : Nat) (beh : Nat → CaseBehavior) :
    ∀ (l : List (String × Nat × Json)) (idx k : Nat) (msg : String),
      k < l.length → (beh (idx + k)).storeError = some msg →
      (∀ i, i < k → (beh (idx + i)).storeError = none) →
      runLoop rid beh l idx = (loopResults rid beh (l.take k) idx, some msg) := by
  intro l
  induction l with
  | nil => intro idx k msg hk _ _; exact absurd hk (by simp)
  | cons p rest ih =>
    intro idx k msg hk hfail hok
    cases k with
    | zero =>
      have h0 : (beh idx).storeError = some msg := by simpa using hfail
      simp [runLoop, h0, loopResults]
    | succ k =>
      have h0 : (beh idx).storeError = none := by
        have := hok 0 (Nat.succ_pos k)
        simpa using this
      have hfail' : (beh (idx + 1 + k)).storeError = some msg := by
        have e : idx + 1 + k = idx + (k + 1) := by omega
        rw [e]
        exact hfail
      have hok' : ∀ i, i < k → (beh (idx + 1 + i)).storeError = none := by
        intro i hi
        have e : idx + 1 + i = idx + (i + 1) := by omega
        rw [e]
        exact hok (i + 1) (Nat.succ_lt_succ hi)
      have hk' : k < rest.length := Nat.lt_of_succ_lt_succ hk
      simp [runLoop, h0, ih (idx + 1) k msg hk' hfail' hok', loopResults]

theorem runLoop_cases (rid : Nat) (beh : Nat → CaseBehavior) :
    ∀ (l : List (String × Nat × Json)) (idx : Nat),
      runLoop rid beh l idx = (loopResults rid beh l idx, none)
      ∨ ∃ k msg, k ≤ l.length ∧
          runLoop rid beh l idx = (loopResults rid beh (l.take k) idx, some msg) := by
  intro l
  induction l with
  | nil => intro idx; exact Or.inl rfl
  | cons p rest ih =>
    intro idx
    cases h0 : (beh idx).storeError with
    | some msg =>
      refine Or.inr ⟨0, msg, by simp, ?_⟩
      simp [runLoop, h0, loopResults]
    | none =>
      cases ih (idx + 1) with
      | inl hok =>
        exact Or.inl (by simp [runLoop, h0, hok, loopResults])
      | inr hfail =>
        obtain ⟨k, msg, hk, heq⟩ := hfail
        refine Or.inr ⟨k + 1, msg, by simpa using Nat.succ_le_succ hk, ?_⟩
        simp [runLoop, h0, heq, loopResults]

theorem pairsOf_length (llm_ids : List String) (items : List (Nat × Json)) :
    (pairsOf llm_ids items).length = llm_ids.length * items.length := by
  induction llm_ids with
  | nil => simp [pairsOf]
  | cons l rest ih =>
    have e : pairsOf (l :: rest) items
        = items.map (fun it => (l, it)) ++ pairsOf rest items := by
      simp [pairsOf]
    rw [e, List.length_append, List.length_map, ih, List.length_cons, Nat.succ_mul]
    omega

theorem mem_pairsOf (llm_ids : List String) (items : List (Nat × Json))
    (p : String × Nat × Json) (hp : p ∈ pairsOf llm_ids items) :
    p.1 ∈ llm_ids ∧ p.2 ∈ items := by
  simp only [pairsOf, List.mem_flatMap, List.mem_map] at hp
  obtain ⟨l, hl, it, hit, rfl⟩ := hp
  exact ⟨hl, hit⟩

theorem mem_loopResults (rid : Nat) (beh : Nat → CaseBehavior) :
    ∀ (l : List (String × Nat × Json)) (idx : Nat) (r : TestResult),
      r ∈ loopResults rid beh l idx →
      ∃ p ∈ l, ∃ i, r = caseResult rid p (beh i) := by
  intro l
  induction l with
  | nil => intro idx r hr; exact absurd hr (by simp [loopResults])
  | cons p rest ih =>
    intro idx r hr
    simp only [loopResults, List.mem_cons] at hr
    cases hr with
    | inl h => exact ⟨p, by simp, idx, h⟩
    | inr h =>
      obtain ⟨q, hq, i, hi⟩ := ih (idx + 1) r h
      exact ⟨q, by simp [hq], i, hi⟩

theorem isEmpty_false_of_ne_nil {α : Type} {l : List α} (h : l ≠ []) :
    l.isEmpty = false := by
  cases l with
  | nil => exact absurd rfl h
  | cons a t => rfl

theorem execute_empty_eq (table : List (Nat × Json)) (run0 : TestRun) (runFound : Bool)
    (item_ids : List Nat) (llm_ids : List String) (beh : Nat → CaseBehavior)
    (hfe : fetchItems table item_ids = []) :
    executeTestRunBackground table run0 runFound item_ids llm_ids beh = ⟨run0, []⟩ := by
  simp [executeTestRunBackground, hfe]

theorem execute_notfound_eq (table : List (Nat × Json)) (run0 : TestRun)
    (item_ids : List Nat) (llm_ids : List String) (beh : Nat → CaseBehavior) :
    executeTestRunBackground table run0 false item_ids llm_ids beh = ⟨run0, []⟩ := by
  by_cases hfe : fetchItems table item_ids = []
  · simp [executeTestRunBackground, hfe]
  · simp [executeTestRunBackground, isEmpty_false_of_ne_nil hfe]

theorem execute_ok_eq (table : List (Nat × Json)) (run0 : TestRun)
    (item_ids : List Nat) (llm_ids : List String) (beh : Nat → CaseBehavior)
    (hne : fetchItems table item_ids ≠ [])
    (hnone : (runLoop run0.id beh (pairsOf llm_ids (fetchItems table item_ids)) 0).2 = none) :
    executeTestRunBackground table run0 true item_ids llm_ids beh =
      ⟨{ run0 with
          status := "completed"
          started_at_set := true
          completed_at_set := true },
       (runLoop run0.id beh (pairsOf llm_ids (fetchItems table item_ids)) 0).1⟩ := by
  simp [executeTestRunBackground, isEmpty_false_of_ne_nil hne, hnone]

theorem execute_fail_eq (table : List (Nat × Json)) (run0 : TestRun)
    (item_ids : List Nat) (llm_ids : List String) (beh : Nat → CaseBehavior)
    (hne : fetchItems table item_ids ≠ []) (msg : String)
    (hsome : (runLoop run0.id beh (pairsOf llm_ids (fetchItems table item_ids)) 0).2
        = some msg) :
    executeTestRunBackground table run0 true item_ids llm_ids beh =
      ⟨{ run0 with
          status := "failed"
          started_at_set := true
          completed_at_set := true
          error_message := some msg },
       (runLoop run0.id beh (pairsOf llm_ids (fetchItems table item_ids)) 0).1⟩ := by
  simp [executeTestRunBackground, isEmpty_false_of_ne_nil hne, hsome]

/-- C1 (counterexample): a run of two pairings whose per-case routine
raises on the first pairing (its result-persistence step fails).  The
orchestrator does not catch it per-pairing: zero results are stored —
in particular the remaining pairing is never attempted — and the run
escalates to `failed` even though the failure was not in the driver's
own bookkeeping, contradicting the claim as stated. -/
theorem C1_counterexample :
    (executeTestRunBackground [(1, Json.null), (2, Json.null)] (createTestRun 7) true
        [1, 2] ["modelA"]
        (fun _ => ⟨CaseOutcome.validationPass "x", ⟨0, 0, 0⟩, some "DB write failed"⟩)).results
      = []
    ∧ (executeTestRunBackground [(1, Json.null), (2, Json.null)] (createTestRun 7) true
        [1, 2] ["modelA"]
        (fun _ => ⟨CaseOutcome.validationPass "x", ⟨0, 0, 0⟩, some "DB write failed"⟩)).run.status
      = "failed" :=
  ⟨rfl, rfl⟩

/-- C1 (amended): exceptions inside a case's execution are contained by
`run_single_test_case` itself — with no persistence failures the loop
attempts every pairing, whatever each case's outcome, and the run
completes.  But an exception escaping the per-case routine (possible
only from its result-persistence step) is not caught per-pairing: the
loop aborts at the first such pairing, the remaining pairings are not
attempted, and the run is marked `failed`. -/
theorem C1_amended (table : List (Nat × Json)) (run0 : TestRun)
    (item_ids : List Nat) (llm_ids : List String) (beh : Nat → CaseBehavior)
    (hne : fetchItems table item_ids ≠ []) :
    ((∀ i, i < (pairsOf llm_ids (fetchItems table item_ids)).length →
        (beh i).storeError = none) →
      (executeTestRunBackground table run0 true item_ids llm_ids beh).run.status = "completed"
      ∧ (executeTestRunBackground table run0 true item_ids llm_ids beh).results.length
          = (pairsOf llm_ids (fetchItems table item_ids)).length)
    ∧ ∀ k msg, k < (pairsOf llm_ids (fetchItems table item_ids)).length →
        (beh k).storeError = some msg →
        (∀ i, i < k → (beh i).storeError = none) →
        (executeTestRunBackground table run0 true item_ids llm_ids beh).run.status = "failed"
        ∧ (executeTestRunBackground table run0 true item_ids llm_ids beh).results.length = k := by
  constructor
  · intro hok
    have h1 := runLoop_ok run0.id beh (pairsOf llm_ids (fetchItems table item_ids)) 0
      (by intro i hi; simpa using hok i hi)
    rw [execute_ok_eq table run0 item_ids llm_ids beh hne (by rw [h1])]
    exact ⟨rfl, by simp [h1, loopResults_length]⟩
  · intro k msg hk hf ho
    have h1 := runLoop_fail run0.id beh (pairsOf llm_ids (fetchItems table item_ids)) 0 k msg
      hk (by simpa using hf) (by intro i hi; simpa using ho i hi)
    rw [execute_fail_eq table run0 item_ids llm_ids beh hne msg (by rw [h1])]
    refine ⟨rfl, ?_⟩
    simp only [h1, loopResults_length, List.length_take]
    omega

/-- C1 (witness): a two-pairing run with no persistence failure
completes with both pairings attempted; one with a persistence failure
on its first pairing fails with none attempted. -/
theorem C1_amended_witness :
    fetchItems [(1, Json.null), (2, Json.null)] [1, 2] ≠ []
    ∧ ((executeTestRunBackground [(1, Json.null), (2, Json.null)] (createTestRun 7) true
          [1, 2] ["modelA"]
          (fun _ => ⟨CaseOutcome.noContent, ⟨0, 0, 0⟩, none⟩)).run.status = "completed"
        ∧ (executeTestRunBackground [(1, Json.null), (2, Json.null)] (createTestRun 7) true
          [1, 2] ["modelA"]
          (fun _ => ⟨CaseOutcome.noContent, ⟨0, 0, 0⟩, none⟩)).results.length = 2)
    ∧ ((executeTestRunBackground [(1, Json.null), (2, Json.null)] (createTestRun 7) true
          [1, 2] ["modelA"]
          (fun _ => ⟨CaseOutcome.noContent, ⟨0, 0, 0⟩, some "boom"⟩)).run.status = "failed"
        ∧ (executeTestRunBackground [(1, Json.null), (2, Json.null)] (createTestRun 7) true
          [1, 2] ["modelA"]
          (fun _ => ⟨CaseOutcome.noContent, ⟨0, 0, 0⟩, some "boom"⟩)).results.length = 0) :=
  ⟨fun h => List.noConfusion h,
   (C1_amended [(1, Json.null), (2, Json.null)] (createTestRun 7) [1, 2] ["modelA"]
      (fun _ => ⟨CaseOutcome.noContent, ⟨0, 0, 0⟩, none⟩)
      (fun h => List.noConfusion h)).1 (fun _ _ => rfl),
   (C1_amended [(1, Json.null), (2, Json.null)] (createTestRun 7) [1, 2] ["modelA"]
      (fun _ => ⟨CaseOutcome.noContent, ⟨0, 0, 0⟩, some "boom"⟩)
      (fun h => List.noConfusion h)).2 0 "boom" (by decide) rfl
      (fun i hi => absurd hi (Nat.not_lt_zero i))⟩

/-- C3 (counterexample): the mock-data table holds content "A" for item
1 at run creation (where the item ids are captured), and is edited to
"B" before the background task starts.  The stored
`mock_input_data_used` is "B", the content at background-task start,
not the run-creation content "A" — so an edit between run creation and
task start does change the run's results. -/
theorem C3_counterexample :
    ((executeTestRunBackground [(1, Json.str "B")] (createTestRun 7) true
        (generatedItemIds [(1, Json.str "A")]) ["modelA"]
        (fun _ => ⟨CaseOutcome.validationPass "x", ⟨0, 0, 0⟩, none⟩)).results.map
      (fun r => r.mock_input_data_used)) = [Json.str "B"]
    ∧ Json.str "B" ≠ Json.str "A" := by
  refine ⟨rfl, fun h => by simp at h⟩

/-- C3 (amended): every persisted result's `mock_input_data_used` is
the content of a mock input as fetched at background-task start (the
snapshot), and the driver's behavior depends on the table only through
that snapshot — so edits made after the snapshot is taken never affect
the run's results.  (As the counterexample shows, the snapshot is taken
at task start, not at run creation.) -/
theorem C3_amended (table : List (Nat × Json)) (run0 : TestRun) (runFound : Bool)
    (item_ids : List Nat) (llm_ids : List String) (beh : Nat → CaseBehavior) :
    (∀ r ∈ (executeTestRunBackground table run0 runFound item_ids llm_ids beh).results,
      ∃ e ∈ fetchItems table item_ids, r.mock_input_data_used = e.2)
    ∧ ∀ table2, fetchItems table2 item_ids = fetchItems table item_ids →
        executeTestRunBackground table2 run0 runFound item_ids llm_ids beh
          = executeTestRunBackground table run0 runFound item_ids llm_ids beh := by
  constructor
  · intro r hr
    by_cases hfe : fetchItems table item_ids = []
    · rw [execute_empty_eq table run0 runFound item_ids llm_ids beh hfe] at hr
      exact absurd hr (by simp)
    · cases runFound with
      | false =>
        rw [execute_notfound_eq table run0 item_ids llm_ids beh] at hr
        exact absurd hr (by simp)
      | true =>
        have key : ∀ l, l ⊆ pairsOf llm_ids (fetchItems table item_ids) →
            r ∈ loopResults run0.id beh l 0 →
            ∃ e ∈ fetchItems table item_ids, r.mock_input_data_used = e.2 := by
          intro l hsub hmem
          obtain ⟨p, hp, i, rfl⟩ := mem_loopResults run0.id beh l 0 r hmem
          exact ⟨p.2, (mem_pairsOf llm_ids (fetchItems table item_ids) p (hsub hp)).2,
            caseResult_mock run0.id p (beh i)⟩
        rcases runLoop_cases run0.id beh (pairsOf llm_ids (fetchItems table item_ids)) 0
          with h | ⟨k, msg, hk, h⟩
        · rw [execute_ok_eq table run0 item_ids llm_ids beh hfe (by rw [h])] at hr
          rw [h] at hr
          exact key _ (fun p hp => hp) hr
        · rw [execute_fail_eq table run0 item_ids llm_ids beh hfe msg (by rw [h])] at hr
          rw [h] at hr
          exact key _ (List.take_subset k _) hr
  · intro table2 h
    unfold executeTestRunBackground
    rw [h]

/-- C3 (witness): enlarging the table with an item outside the captured
ids leaves the snapshot, and hence the whole driver outcome,
unchanged. -/
theorem C3_amended_witness :
    fetchItems [(1, Json.str "B"), (99, Json.str "Z")] [1]
        = fetchItems [(1, Json.str "B")] [1]
    ∧ executeTestRunBackground [(1, Json.str "B"), (99, Json.str "Z")] (createTestRun 7)
        true [1] ["modelA"] (fun _ => ⟨CaseOutcome.noContent, ⟨0, 0, 0⟩, none⟩)
      = executeTestRunBackground [(1, Json.str "B")] (createTestRun 7)
        true [1] ["modelA"] (fun _ => ⟨CaseOutcome.noContent, ⟨0, 0, 0⟩, none⟩) :=
  ⟨rfl,
   (C3_amended [(1, Json.str "B")] (createTestRun 7) true [1] ["modelA"]
      (fun _ => ⟨CaseOutcome.noContent, ⟨0, 0, 0⟩, none⟩)).2
      [(1, Json.str "B"), (99, Json.str "Z")] rfl⟩

/-- C4 (counterexample): the background driver starts and the input-set
load finds no rows, raising `ValueError` before the run row is fetched;
the `if 'test_run_obj' in locals()` guards then skip both the status
update and the completion timestamp: the run stays `queued` — it never
transitions to `failed` — contradicting the claim's own example. -/
theorem C4_counterexample :
    (executeTestRunBackground [] (createTestRun 7) true [1] ["modelA"]
        (fun _ => ⟨CaseOutcome.noContent, ⟨0, 0, 0⟩, none⟩)).run.status = "queued"
    ∧ (executeTestRunBackground [] (createTestRun 7) true [1] ["modelA"]
        (fun _ => ⟨CaseOutcome.noContent, ⟨0, 0, 0⟩, none⟩)).run.status ≠ "failed"
    ∧ (executeTestRunBackground [] (createTestRun 7) true [1] ["modelA"]
        (fun _ => ⟨CaseOutcome.noContent, ⟨0, 0, 0⟩, none⟩)).run.completed_at_set = false :=
  ⟨rfl, by decide, rfl⟩

/-- C4 (amended): once the driver gets past its bookkeeping — the input
snapshot is non-empty and the run row was fetched — the run always
reaches `completed` or `failed` and the completion timestamp is set in
the `finally` block.  But a failure loading the input set, or a missing
run row, occurs before the row is in scope and leaves the run record
untouched (still `queued`, no timestamps). -/
theorem C4_amended (table : List (Nat × Json)) (run0 : TestRun)
    (item_ids : List Nat) (llm_ids : List String) (beh : Nat → CaseBehavior) :
    (fetchItems table item_ids = [] →
      executeTestRunBackground table run0 true item_ids llm_ids beh = ⟨run0, []⟩)
    ∧ executeTestRunBackground table run0 false item_ids llm_ids beh = ⟨run0, []⟩
    ∧ (fetchItems table item_ids ≠ [] →
        ((executeTestRunBackground table run0 true item_ids llm_ids beh).run.status
            = "completed"
          ∨ (executeTestRunBackground table run0 true item_ids llm_ids beh).run.status
            = "failed")
        ∧ (executeTestRunBackground table run0 true item_ids llm_ids beh).run.completed_at_set
            = true
        ∧ (executeTestRunBackground table run0 true item_ids llm_ids beh).run.started_at_set
            = true) := by
  refine ⟨fun hfe => execute_empty_eq table run0 true item_ids llm_ids beh hfe,
    execute_notfound_eq table run0 item_ids llm_ids beh, fun hne => ?_⟩
  rcases runLoop_cases run0.id beh (pairsOf llm_ids (fetchItems table item_ids)) 0
    with h | ⟨k, msg, hk, h⟩
  · rw [execute_ok_eq table run0 item_ids llm_ids beh hne (by rw [h])]
    exact ⟨Or.inl rfl, rfl, rfl⟩
  · rw [execute_fail_eq table run0 item_ids llm_ids beh hne msg (by rw [h])]
    exact ⟨Or.inr rfl, rfl, rfl⟩

/-- C4 (witness): a run over a non-empty snapshot reaches a terminal
status with the completion timestamp set. -/
theorem C4_amended_witness :
    fetchItems [(1, Json.null)] [1] ≠ []
    ∧ ((executeTestRunBackground [(1, Json.null)] (createTestRun 7) true [1] ["modelA"]
          (fun _ => ⟨CaseOutcome.noContent, ⟨0, 0, 0⟩, none⟩)).run.status = "completed"
        ∨ (executeTestRunBackground [(1, Json.null)] (createTestRun 7) true [1] ["modelA"]
          (fun _ => ⟨CaseOutcome.noContent, ⟨0, 0, 0⟩, none⟩)).run.status = "failed")
    ∧ (executeTestRunBackground [(1, Json.null)] (createTestRun 7) true [1] ["modelA"]
          (fun _ => ⟨CaseOutcome.noContent, ⟨0, 0, 0⟩, none⟩)).run.completed_at_set = true :=
  ⟨fun h => List.noConfusion h,
   ((C4_amended [(1, Json.null)] (createTestRun 7) [1] ["modelA"]
      (fun _ => ⟨CaseOutcome.noContent, ⟨0, 0, 0⟩, none⟩)).2.2
      (fun h => List.noConfusion h)).1,
   ((C4_amended [(1, Json.null)] (createTestRun 7) [1] ["modelA"]
      (fun _ => ⟨CaseOutcome.noContent, ⟨0, 0, 0⟩, none⟩)).2.2
      (fun h => List.noConfusion h)).2.1⟩

theorem attemptedCount_of_runLoop (rid : Nat) (beh : Nat → CaseBehavior) :
    ∀ (l : List (String × Nat × Json)) (idx : Nat),
      ((runLoop rid beh l idx).2 = none → attemptedCount beh l idx = l.length)
      ∧ ∀ msg, (runLoop rid beh l idx).2 = some msg →
          attemptedCount beh l idx = (runLoop rid beh l idx).1.length + 1 := by
  intro l
  induction l with
  | nil =>
    intro idx
    exact ⟨fun _ => rfl, fun msg h => Option.noConfusion h⟩
  | cons p rest ih =>
    intro idx
    cases h0 : (beh idx).storeError with
    | some m =>
      constructor
      · intro hnone
        simp [runLoop, h0] at hnone
      · intro msg _
        simp [attemptedCount, h0, runLoop]
    | none =>
      constructor
      · intro hnone
        have h2 : (runLoop rid beh rest (idx + 1)).2 = none := by
          simpa [runLoop, h0] using hnone
        simp only [attemptedCount, h0, (ih (idx + 1)).1 h2, List.length_cons]
        omega
      · intro msg hsome
        have h2 : (runLoop rid beh rest (idx + 1)).2 = some msg := by
          simpa [runLoop, h0] using hsome
        simp only [attemptedCount, h0, (ih (idx + 1)).2 msg h2, runLoop,
          List.length_cons]
        omega

/-- C5 (counterexample): a 1-model × 2-input run (N×M = 2) whose first
pairing's persistence step raises.  That pairing was attempted — its
case executed in full before the store raised — yet the terminal
(`failed`) run holds zero results: "exactly one TestCaseResult per
pairing actually attempted" fails, and the run has fewer than N×M
results although no failure occurred in the driver's own bookkeeping
(the spec's notion of an orchestration-level error). -/
theorem C5_counterexample :
    (executeTestRunBackground [(1, Json.null), (2, Json.null)] (createTestRun 8) true
        [1, 2] ["modelA"]
        (fun _ => ⟨CaseOutcome.validationPass "ok", ⟨0, 0, 0⟩, some "DB write failed"⟩)).run.status
      = "failed"
    ∧ attemptedCount
        (fun _ => ⟨CaseOutcome.validationPass "ok", ⟨0, 0, 0⟩, some "DB write failed"⟩)
        (pairsOf ["modelA"] (fetchItems [(1, Json.null), (2, Json.null)] [1, 2])) 0
      = 1
    ∧ (executeTestRunBackground [(1, Json.null), (2, Json.null)] (createTestRun 8) true
        [1, 2] ["modelA"]
        (fun _ => ⟨CaseOutcome.validationPass "ok", ⟨0, 0, 0⟩, some "DB write failed"⟩)).results.length
      = 0
    ∧ (0 : Nat) ≠ 1 :=
  ⟨rfl, rfl, rfl, by decide⟩

/-- C5 (amended): once terminal, the number of persisted results is
between 0 and N×M inclusive.  A run reaching `completed` has exactly
N×M results — one per attempted pairing, all pairings attempted.  But a
pairing whose persistence step raises is attempted without storing a
result: the run then terminates `failed` with k stored results and k+1
attempted pairings, so a terminal run can fall short of N×M without any
failure in the driver's own bookkeeping, and the stored results are the
per-case results of the attempted pairings in fan-out order minus the
aborting one. -/
theorem C5_amended (table : List (Nat × Json)) (run0 : TestRun) (runFound : Bool)
    (item_ids : List Nat) (llm_ids : List String) (beh : Nat → CaseBehavior)
    (hq : run0.status = "queued") :
    (executeTestRunBackground table run0 runFound item_ids llm_ids beh).results.length
      ≤ llm_ids.length * (fetchItems table item_ids).length
    ∧ ((executeTestRunBackground table run0 runFound item_ids llm_ids beh).run.status
          = "completed" →
        (executeTestRunBackground table run0 runFound item_ids llm_ids beh).results.length
          = llm_ids.length * (fetchItems table item_ids).length
        ∧ (executeTestRunBackground table run0 runFound item_ids llm_ids beh).results.length
          = attemptedCount beh (pairsOf llm_ids (fetchItems table item_ids)) 0)
    ∧ (∀ k msg, k < (pairsOf llm_ids (fetchItems table item_ids)).length →
        (beh k).storeError = some msg →
        (∀ i, i < k → (beh i).storeError = none) →
        (executeTestRunBackground table run0 true item_ids llm_ids beh).run.status
          = "failed"
        ∧ attemptedCount beh (pairsOf llm_ids (fetchItems table item_ids)) 0 = k + 1
        ∧ (executeTestRunBackground table run0 true item_ids llm_ids beh).results.length
          = k)
    ∧ ∃ k, k ≤ (pairsOf llm_ids (fetchItems table item_ids)).length ∧
        (executeTestRunBackground table run0 runFound item_ids llm_ids beh).results
          = loopResults run0.id beh ((pairsOf llm_ids (fetchItems table item_ids)).take k) 0 := by
  have hfail : ∀ k msg, k < (pairsOf llm_ids (fetchItems table item_ids)).length →
      (beh k).storeError = some msg →
      (∀ i, i < k → (beh i).storeError = none) →
      (executeTestRunBackground table run0 true item_ids llm_ids beh).run.status
        = "failed"
      ∧ attemptedCount beh (pairsOf llm_ids (fetchItems table item_ids)) 0 = k + 1
      ∧ (executeTestRunBackground table run0 true item_ids llm_ids beh).results.length
        = k := by
    intro k msg hk hf ho
    by_cases hfe : fetchItems table item_ids = []
    · exfalso
      rw [hfe] at hk
      have hnilp : pairsOf llm_ids ([] : List (Nat × Json)) = [] := by
        simp [pairsOf]
      rw [hnilp] at hk
      exact absurd hk (by simp)
    · have h1 := runLoop_fail run0.id beh (pairsOf llm_ids (fetchItems table item_ids)) 0
        k msg hk (by simpa using hf) (by intro i hi; simpa using ho i hi)
      have hatt := (attemptedCount_of_runLoop run0.id beh
        (pairsOf llm_ids (fetchItems table item_ids)) 0).2 msg (by rw [h1])
      rw [execute_fail_eq table run0 item_ids llm_ids beh hfe msg (by rw [h1])]
      refine ⟨rfl, ?_, ?_⟩
      · rw [hatt, h1]
        simp only [loopResults_length, List.length_take]
        omega
      · simp only [h1, loopResults_length, List.length_take]
        omega
  have hmain : (executeTestRunBackground table run0 runFound item_ids llm_ids
        beh).results.length
        ≤ llm_ids.length * (fetchItems table item_ids).length
      ∧ ((executeTestRunBackground table run0 runFound item_ids llm_ids beh).run.status
            = "completed" →
          (executeTestRunBackground table run0 runFound item_ids llm_ids
              beh).results.length
            = llm_ids.length * (fetchItems table item_ids).length
          ∧ (executeTestRunBackground table run0 runFound item_ids llm_ids
              beh).results.length
            = attemptedCount beh (pairsOf llm_ids (fetchItems table item_ids)) 0)
      ∧ ∃ k, k ≤ (pairsOf llm_ids (fetchItems table item_ids)).length ∧
          (executeTestRunBackground table run0 runFound item_ids llm_ids beh).results
            = loopResults run0.id beh
                ((pairsOf llm_ids (fetchItems table item_ids)).take k) 0 := by
    by_cases hfe : fetchItems table item_ids = []
    · rw [execute_empty_eq table run0 runFound item_ids llm_ids beh hfe]
      refine ⟨by simp, fun h => ?_, 0, by simp, by simp [loopResults]⟩
      rw [hq] at h
      exact absurd h (by decide)
    · cases runFound with
      | false =>
        rw [execute_notfound_eq table run0 item_ids llm_ids beh]
        refine ⟨by simp, fun h => ?_, 0, by simp, by simp [loopResults]⟩
        rw [hq] at h
        exact absurd h (by decide)
      | true =>
        rcases runLoop_cases run0.id beh (pairsOf llm_ids (fetchItems table item_ids)) 0
          with h | ⟨k, msg, hk, h⟩
        · have hatt := (attemptedCount_of_runLoop run0.id beh
            (pairsOf llm_ids (fetchItems table item_ids)) 0).1 (by rw [h])
          rw [execute_ok_eq table run0 item_ids llm_ids beh hfe (by rw [h])]
          refine ⟨?_, fun _ => ⟨?_, ?_⟩,
            (pairsOf llm_ids (fetchItems table item_ids)).length, le_refl _, ?_⟩
          · simp [h, loopResults_length, pairsOf_length]
          · simp [h, loopResults_length, pairsOf_length]
          · rw [hatt]
            simp [h, loopResults_length]
          · rw [h, List.take_length]
        · rw [execute_fail_eq table run0 item_ids llm_ids beh hfe msg (by rw [h])]
          refine ⟨?_, fun hc => by simp at hc, k, hk, by rw [h]⟩
          simp only [h, loopResults_length, List.length_take, ← pairsOf_length]
          omega
  exact ⟨hmain.1, hmain.2.1, hfail, hmain.2.2⟩

/-- C5 (witness): a completed 1×1 run stores one result for its one
attempted pairing; a 1×2 run whose first persistence step raises ends
`failed` with one attempted pairing and zero stored results. -/
theorem C5_amended_witness :
    (createTestRun 7).status = "queued"
    ∧ (executeTestRunBackground [(1, Json.null)] (createTestRun 7) true [1] ["modelA"]
        (fun _ => ⟨CaseOutcome.noContent, ⟨0, 0, 0⟩, none⟩)).results.length
      = attemptedCount (fun _ => ⟨CaseOutcome.noContent, ⟨0, 0, 0⟩, none⟩)
          (pairsOf ["modelA"] (fetchItems [(1, Json.null)] [1])) 0
    ∧ ((executeTestRunBackground [(1, Json.null), (2, Json.null)] (createTestRun 7) true
          [1, 2] ["modelA"]
          (fun _ => ⟨CaseOutcome.noContent, ⟨0, 0, 0⟩, some "boom"⟩)).run.status
        = "failed"
      ∧ attemptedCount (fun _ => ⟨CaseOutcome.noContent, ⟨0, 0, 0⟩, some "boom"⟩)
          (pairsOf ["modelA"] (fetchItems [(1, Json.null), (2, Json.null)] [1, 2])) 0
        = 0 + 1
      ∧ (executeTestRunBackground [(1, Json.null), (2, Json.null)] (createTestRun 7) true
          [1, 2] ["modelA"]
          (fun _ => ⟨CaseOutcome.noContent, ⟨0, 0, 0⟩, some "boom"⟩)).results.length
        = 0) :=
  ⟨rfl,
   ((C5_amended [(1, Json.null)] (createTestRun 7) true [1] ["modelA"]
      (fun _ => ⟨CaseOutcome.noContent, ⟨0, 0, 0⟩, none⟩) rfl).2.1 rfl).2,
   (C5_amended [(1, Json.null), (2, Json.null)] (createTestRun 7) true [1, 2] ["modelA"]
      (fun _ => ⟨CaseOutcome.noContent, ⟨0, 0, 0⟩, some "boom"⟩) rfl).2.2.1 0 "boom"
      (by decide) rfl (fun i hi => absurd hi (Nat.not_lt_zero i))⟩

/-- C2 (counterexample): when the compliance checker fails with a
schema-level error (the `except Exception as sve` branch at lines
88-91), the executor does NOT record an execution-level error: the
result's `error_message` stays unset, its compliance status is set to
`"Fail"`, and a violation record with validator `"schema_error"` is
stored — the opposite of each part of the claim. -/
theorem C2_counterexample :
    (runSingleTestCase 7 "modelA" Json.null (CaseOutcome.schemaError "raw" "boom")
        ⟨0, 0, 0⟩).error_message = none
    ∧ (runSingleTestCase 7 "modelA" Json.null (CaseOutcome.schemaError "raw" "boom")
        ⟨0, 0, 0⟩).schema_compliance_status = some "Fail"
    ∧ (runSingleTestCase 7 "modelA" Json.null (CaseOutcome.schemaError "raw" "boom")
        ⟨0, 0, 0⟩).validation_errors = some [⟨"boom", [], "schema_error"⟩] :=
  ⟨rfl, rfl, rfl⟩

/-- C2 (amended): a malformed schema (any non-`ValidationError`
exception from the checker) is recorded as a compliance failure for the
case: `schema_compliance_status = "Fail"`, one violation record
`{message, path = [], validator = "schema_error"}` is stored, the
result's `error_message` is left unset, and `parse_status` remains
`true`. -/
theorem C2_amended (rid : Nat) (llm : String) (content : Json) (raw msg : String)
    (t : Phases) :
    (runSingleTestCase rid llm content (CaseOutcome.schemaError raw msg)
        t).schema_compliance_status = some "Fail"
    ∧ (runSingleTestCase rid llm content (CaseOutcome.schemaError raw msg)
        t).validation_errors = some [⟨msg, [], "schema_error"⟩]
    ∧ (runSingleTestCase rid llm content (CaseOutcome.schemaError raw msg)
        t).error_message = none
    ∧ (runSingleTestCase rid llm content (CaseOutcome.schemaError raw msg)
        t).parse_status = some true :=
  ⟨rfl, rfl, rfl, rfl⟩

/-- C7: for every result produced by the per-case executor, a `false`
parse status forces the "N/A (not valid JSON)" compliance marker with
no stored violations, and a `"Pass"` compliance status forces absent
violations. -/
theorem C7_result_invariants (rid : Nat) (llm : String) (content : Json)
    (o : CaseOutcome) (t : Phases) :
    ((runSingleTestCase rid llm content o t).parse_status = some false →
      (runSingleTestCase rid llm content o t).schema_compliance_status
          = some "N/A (not valid JSON)"
      ∧ (runSingleTestCase rid llm content o t).validation_errors = none)
    ∧ ((runSingleTestCase rid llm content o t).schema_compliance_status = some "Pass" →
      (runSingleTestCase rid llm content o t).validation_errors = none) := by
  cases o <;> simp [runSingleTestCase]

/-- C7 (witness): the invariants evaluated on a parse-failure case and
a validation-pass case. -/
theorem C7_result_invariants_witness :
    ((runSingleTestCase 7 "modelA" Json.null (CaseOutcome.parseFail "x")
        ⟨0, 0, 0⟩).schema_compliance_status = some "N/A (not valid JSON)"
      ∧ (runSingleTestCase 7 "modelA" Json.null (CaseOutcome.parseFail "x")
        ⟨0, 0, 0⟩).validation_errors = none)
    ∧ (runSingleTestCase 7 "modelA" Json.null (CaseOutcome.validationPass "x")
        ⟨0, 0, 0⟩).validation_errors = none :=
  ⟨(C7_result_invariants 7 "modelA" Json.null (CaseOutcome.parseFail "x") ⟨0, 0, 0⟩).1 rfl,
   (C7_result_invariants 7 "modelA" Json.null (CaseOutcome.validationPass "x")
      ⟨0, 0, 0⟩).2 rfl⟩

/-- C8 (counterexample): with 1 s of prompt building, 2 s inside the
LLM call and 3 s of parsing/validation, the recorded
`execution_time_ms` is 6000 — the whole routine body — not the 2000 ms
of the LLM invocation interval alone, refuting "the LLM invocation call
only". -/
theorem C8_counterexample :
    (runSingleTestCase 7 "modelA" Json.null (CaseOutcome.validationPass "x")
        ⟨1, 2, 3⟩).execution_time_ms = some 6000
    ∧ (6000 : ℚ) ≠ 2 * 1000 := by
  constructor
  · show some (executionTimeMs ⟨1, 2, 3⟩ (CaseOutcome.validationPass "x")) = some 6000
    norm_num [executionTimeMs, elapsedSeconds]
  · norm_num

/-- C8 (amended): the recorded elapsed time spans the whole per-case
body — from before prompt construction (line 36) to after the response
processing (line 109) — in milliseconds, and is recorded on every
outcome path; consequently it is at least the LLM-call interval, and
strictly exceeds it whenever prompt construction takes any time at
all. -/
theorem C8_timing (rid : Nat) (llm : String) (content : Json) (o : CaseOutcome)
    (t : Phases) (hb : 0 ≤ t.build) (hp : 0 ≤ t.post) :
    (runSingleTestCase rid llm content o t).execution_time_ms
        = some (elapsedSeconds t o * 1000)
    ∧ t.call * 1000 ≤ elapsedSeconds t o * 1000
    ∧ (0 < t.build → t.call * 1000 < elapsedSeconds t o * 1000) := by
  refine ⟨rfl, ?_, ?_⟩
  · cases o <;> simp only [elapsedSeconds] <;> nlinarith
  · intro hb'
    cases o <;> simp only [elapsedSeconds] <;> nlinarith

/-- C8 (witness): the timing bounds evaluated at build = 1 s,
call = 2 s, post = 3 s on a validation-pass case. -/
theorem C8_timing_witness :
    (0 : ℚ) ≤ 1
    ∧ (runSingleTestCase 7 "modelA" Json.null (CaseOutcome.validationPass "x")
        ⟨1, 2, 3⟩).execution_time_ms
        = some (elapsedSeconds ⟨1, 2, 3⟩ (CaseOutcome.validationPass "x") * 1000)
    ∧ (2 : ℚ) * 1000 < elapsedSeconds ⟨1, 2, 3⟩ (CaseOutcome.validationPass "x") * 1000 :=
  ⟨zero_le_one,
   (C8_timing 7 "modelA" Json.null (CaseOutcome.validationPass "x") ⟨1, 2, 3⟩
      zero_le_one zero_le_three).1,
   (C8_timing 7 "modelA" Json.null (CaseOutcome.validationPass "x") ⟨1, 2, 3⟩
      zero_le_one zero_le_three).2.2 zero_lt_one⟩

theorem summarizeModel_target (id : String) (results : List TestResult) :
    (summarizeModel id results).target_llm_model_id = id := rfl

theorem llm_summaries_eq (run_id : Nat) (run_name : Option String)
    (results : List TestResult) (h : results ≠ []) :
    (getTestRunSummaryByLLM run_id run_name results).llm_summaries
      = (modelIdsInOrder results).map (fun id => summarizeModel id results) := by
  simp [getTestRunSummaryByLLM, isEmpty_false_of_ne_nil h]

theorem mem_modelIdsInOrder (rs : List TestResult) (a : String) :
    a ∈ modelIdsInOrder rs ↔ ∃ r ∈ rs, r.target_llm_model_id = a := by
  induction rs with
  | nil => simp [modelIdsInOrder]
  | cons r rest ih =>
    simp only [modelIdsInOrder, List.mem_cons, List.mem_filter, bne_iff_ne, ne_eq]
    constructor
    · rintro (rfl | ⟨hmem, _⟩)
      · exact ⟨r, by simp⟩
      · obtain ⟨s, hs, hsa⟩ := ih.1 hmem
        exact ⟨s, by simp [hs], hsa⟩
    · rintro ⟨s, hs, rfl⟩
      by_cases har : s.target_llm_model_id = r.target_llm_model_id
      · exact Or.inl har
      · rcases hs with rfl | hs
        · exact Or.inl rfl
        · exact Or.inr ⟨ih.2 ⟨s, hs, rfl⟩, har⟩

theorem modelIdsInOrder_nodup (rs : List TestResult) : (modelIdsInOrder rs).Nodup := by
  induction rs with
  | nil => simp [modelIdsInOrder]
  | cons r rest ih =>
    simp only [modelIdsInOrder, List.nodup_cons]
    refine ⟨fun hmem => ?_, ih.filter _⟩
    have := (List.mem_filter.1 hmem).2
    simp at this

theorem filterMap_of_filter {α β : Type} (p : α → Bool) (f : α → Option β) :
    ∀ l : List α,
      (l.filter p).filterMap f = l.filterMap (fun a => if p a then f a else none) := by
  intro l
  induction l with
  | nil => rfl
  | cons a t ih =>
    by_cases h : p a <;>
      simp [List.filter_cons, h, List.filterMap_cons, ih]

/-- C6 (counterexample): a run with one result whose recorded time is
1/1000 ms.  The claim's unrounded arithmetic mean is 1/1000, but the
endpoint reports `round(avg, 2) = 0.0` — the average is rounded to two
decimal places, unlike the claim states. -/
theorem C6_counterexample :
    ((getTestRunSummaryByLLM 7 none
        [runSingleTestCase 7 "modelA" Json.null (CaseOutcome.validationPass "x")
          ⟨0, 1/1000000, 0⟩]).llm_summaries.map
      (fun s => s.average_execution_time_ms)) = [some 0]
    ∧ specAverageMs "modelA"
        [runSingleTestCase 7 "modelA" Json.null (CaseOutcome.validationPass "x")
          ⟨0, 1/1000000, 0⟩] = some (1/1000)
    ∧ some (0 : ℚ) ≠ some (1/1000 : ℚ) := by
  have hexec : (runSingleTestCase 7 "modelA" Json.null (CaseOutcome.validationPass "x")
      ⟨0, 1/1000000, 0⟩).execution_time_ms = some (1/1000) := by
    show some (executionTimeMs ⟨0, 1/1000000, 0⟩ (CaseOutcome.validationPass "x")) = _
    simp [executionTimeMs, elapsedSeconds]
    norm_num
  have htgt : (runSingleTestCase 7 "modelA" Json.null (CaseOutcome.validationPass "x")
      ⟨0, 1/1000000, 0⟩).target_llm_model_id = "modelA" := rfl
  have hfloor1 : ⌊(1/10 : ℚ)⌋ = 0 := by
    rw [Int.floor_eq_zero_iff, Set.mem_Ico]
    norm_num
  have hfloor2 : ⌊(1/10 + 1/2 : ℚ)⌋ = 0 := by
    rw [Int.floor_eq_zero_iff, Set.mem_Ico]
    norm_num
  have hround : round2 (1/1000 : ℚ) = 0 := by
    have e : (1/1000 : ℚ) * 100 = 1/10 := by norm_num
    rw [round2, roundHalfEven, e, hfloor1]
    rw [if_neg (by push_cast; norm_num), round_eq, hfloor2]
    norm_num
  have hexecI := hexec
  have htgtI := htgt
  simp only [one_div] at hexecI htgtI
  refine ⟨?_, ?_, by norm_num⟩
  · have hrf : resultsFor "modelA"
        [runSingleTestCase 7 "modelA" Json.null (CaseOutcome.validationPass "x")
          ⟨0, 1/1000000, 0⟩]
        = [runSingleTestCase 7 "modelA" Json.null (CaseOutcome.validationPass "x")
            ⟨0, 1/1000000, 0⟩] := by
      simp [resultsFor, htgtI]
    have hfm : ([runSingleTestCase 7 "modelA" Json.null (CaseOutcome.validationPass "x")
          ⟨0, 1/1000000, 0⟩].filterMap (fun r => r.execution_time_ms))
        = [(1/1000 : ℚ)] := by
      simp [List.filterMap_cons, hexecI]
    have hmodel : modelIdsInOrder
        [runSingleTestCase 7 "modelA" Json.null (CaseOutcome.validationPass "x")
          ⟨0, 1/1000000, 0⟩] = ["modelA"] := by
      simp [modelIdsInOrder, htgtI]
    have havg : (([(1/1000 : ℚ)].sum / (([(1/1000 : ℚ)].length : ℕ) : ℚ)) : ℚ)
        = 1/1000 := by
      norm_num
    rw [llm_summaries_eq 7 none _ (by simp), hmodel]
    simp only [List.map_cons, List.map_nil, List.cons.injEq, and_true]
    simp only [summarizeModel]
    rw [hrf, hfm, if_neg (by simp), havg, hround]
  · have hsm : ([runSingleTestCase 7 "modelA" Json.null (CaseOutcome.validationPass "x")
          ⟨0, 1/1000000, 0⟩].filterMap
        (fun r => if r.target_llm_model_id == "modelA" then r.execution_time_ms else none))
        = [(1/1000 : ℚ)] := by
      simp [List.filterMap_cons, htgtI, hexecI]
    simp only [specAverageMs, specRecordedTimes, hsm]
    rw [if_neg (by simp)]
    norm_num

/-- C6 (amended): each per-model aggregate of the summary endpoint, as
the claim states it but with the average also rounded to 2 decimal
places: `total_tests` and `schema_compliant_tests` count that model's
results, `schema_compliance_percentage = round2(compliant/total*100)`
(0.0 when the group is empty — unreachable given the grouping),
`average_execution_time_ms` is the rounded arithmetic mean over results
that recorded a time (`none` if none did), `total_tokens_used` is the
sum over results that recorded tokens (`none` if none did); and a run
with zero results yields the well-formed empty response. -/
theorem C6_summary_aggregates (run_id : Nat) (run_name : Option String)
    (results : List TestResult) :
    (results = [] →
      (getTestRunSummaryByLLM run_id run_name results).llm_summaries = []
      ∧ (getTestRunSummaryByLLM run_id run_name results).overall_total_tests = 0)
    ∧ ∀ s ∈ (getTestRunSummaryByLLM run_id run_name results).llm_summaries,
        s.total_tests = specTotalTests s.target_llm_model_id results
        ∧ s.schema_compliant_tests = specCompliantTests s.target_llm_model_id results
        ∧ s.schema_compliance_percentage
            = round2 (if 0 < specTotalTests s.target_llm_model_id results then
                (specCompliantTests s.target_llm_model_id results : ℚ)
                  / (specTotalTests s.target_llm_model_id results : ℚ) * 100
              else 0)
        ∧ s.average_execution_time_ms
            = Option.map round2 (specAverageMs s.target_llm_model_id results)
        ∧ s.total_tokens_used = specTokens s.target_llm_model_id results := by
  constructor
  · rintro rfl
    exact ⟨rfl, rfl⟩
  · intro s hs
    by_cases hres : results = []
    · subst hres
      exact absurd hs (by simp [getTestRunSummaryByLLM])
    · rw [llm_summaries_eq run_id run_name results hres] at hs
      simp only [List.mem_map] at hs
      obtain ⟨id, _, rfl⟩ := hs
      have etot : (resultsFor id results).length = specTotalTests id results := by
        rw [specTotalTests, List.countP_eq_length_filter]
        rfl
      have ecmp : ((resultsFor id results).filter
          (fun r => r.schema_compliance_status == some "Pass")).length
          = specCompliantTests id results := by
        rw [specCompliantTests, List.countP_eq_length_filter, resultsFor,
          List.filter_filter]
        congr 1
        exact List.filter_congr (fun r _ => Bool.and_comm _ _)
      have etimes : (resultsFor id results).filterMap (fun r => r.execution_time_ms)
          = specRecordedTimes id results := by
        rw [resultsFor, specRecordedTimes, filterMap_of_filter]
      have etok : (resultsFor id results).filterMap (fun r => r.tokens_used)
          = results.filterMap
              (fun r => if r.target_llm_model_id == id then r.tokens_used else none) := by
        rw [resultsFor, filterMap_of_filter]
      refine ⟨?_, ?_, ?_, ?_, ?_⟩
      · simpa only [summarizeModel] using etot
      · simpa only [summarizeModel] using ecmp
      · simp only [summarizeModel, summarizeModel_target, etot, ecmp]
      · simp only [summarizeModel, summarizeModel_target, etimes, specAverageMs]
        cases hts : specRecordedTimes id results with
        | nil => simp [hts]
        | cons a t => simp [hts]
      · simp only [summarizeModel, summarizeModel_target, etok, specTokens]
        cases htk : results.filterMap
            (fun r => if r.target_llm_model_id == id then r.tokens_used else none) with
        | nil => simp [htk]
        | cons a t => simp [htk]

/-- C6 (witness): the empty-run clause and the average clause evaluated
on a concrete one-result run. -/
theorem C6_summary_aggregates_witness :
    (getTestRunSummaryByLLM 7 none []).llm_summaries = []
    ∧ (summarizeModel "modelA"
          [runSingleTestCase 7 "modelA" Json.null (CaseOutcome.validationPass "x")
            ⟨0, 0, 0⟩]).average_execution_time_ms
        = Option.map round2 (specAverageMs "modelA"
            [runSingleTestCase 7 "modelA" Json.null (CaseOutcome.validationPass "x")
              ⟨0, 0, 0⟩]) :=
  ⟨((C6_summary_aggregates 7 none []).1 rfl).1,
   ((C6_summary_aggregates 7 none
        [runSingleTestCase 7 "modelA" Json.null (CaseOutcome.validationPass "x")
          ⟨0, 0, 0⟩]).2
      (summarizeModel "modelA"
        [runSingleTestCase 7 "modelA" Json.null (CaseOutcome.validationPass "x")
          ⟨0, 0, 0⟩])
      (by simp [getTestRunSummaryByLLM, modelIdsInOrder]; rfl)).2.2.2.1⟩

theorem length_resultsFor_loopResults (rid : Nat) (beh : Nat → CaseBehavior)
    (id : String) :
    ∀ (l : List (String × Nat × Json)) (idx : Nat),
      (resultsFor id (loopResults rid beh l idx)).length
        = (l.filter (fun p => p.1 == id)).length := by
  intro l
  induction l with
  | nil => intro idx; rfl
  | cons p rest ih =>
    intro idx
    simp only [resultsFor] at ih ⊢
    simp only [loopResults, List.filter_cons, caseResult_target]
    by_cases hc : p.1 = id <;> simp [hc, ih (idx + 1)]

theorem length_filter_map_const_pair (l id : String) (items : List (Nat × Json)) :
    ((items.map (fun it => (l, it))).filter (fun p => p.1 == id)).length
      = if l == id then items.length else 0 := by
  induction items with
  | nil => cases hc : l == id <;> simp [hc]
  | cons a t ih =>
    simp only [List.map_cons, List.filter_cons]
    by_cases hc : l = id
    · subst hc
      simp at ih
      simp [ih]
    · have hb : (l == id) = false := by simp [hc]
      simp [hb] at ih ⊢
      exact ih

theorem length_filter_pairsOf (id : String) (items : List (Nat × Json)) :
    ∀ llm_ids : List String,
      ((pairsOf llm_ids items).filter (fun p => p.1 == id)).length
        = llm_ids.count id * items.length := by
  intro llm_ids
  induction llm_ids with
  | nil => simp [pairsOf]
  | cons l rest ih =>
    have e : pairsOf (l :: rest) items
        = items.map (fun it => (l, it)) ++ pairsOf rest items := by
      simp [pairsOf]
    rw [e, List.filter_append, List.length_append, ih,
      length_filter_map_const_pair, List.count_cons]
    cases hc : l == id <;> simp [hc, Nat.add_mul]
    omega

/-- C9: a run whose configured model list repeats an identifier runs
each occurrence against every input separately — the result count is
`llm_ids.length * M`, and the identifier's results number
`count id llm_ids * M` — while the summary endpoint groups results by
identifier: exactly one summary entry carries that identifier, and its
`total_tests` is the combined `count id llm_ids * M`. -/
theorem C9_duplicate_models (table : List (Nat × Json)) (run0 : TestRun)
    (run_name : Option String) (item_ids : List Nat) (llm_ids : List String)
    (beh : Nat → CaseBehavior) (id : String)
    (hne : fetchItems table item_ids ≠ [])
    (hid : id ∈ llm_ids)
    (hok : ∀ i, i < (pairsOf llm_ids (fetchItems table item_ids)).length →
        (beh i).storeError = none) :
    (executeTestRunBackground table run0 true item_ids llm_ids beh).results.length
      = llm_ids.length * (fetchItems table item_ids).length
    ∧ (resultsFor id
        (executeTestRunBackground table run0 true item_ids llm_ids beh).results).length
      = llm_ids.count id * (fetchItems table item_ids).length
    ∧ ((getTestRunSummaryByLLM run0.id run_name
          (executeTestRunBackground table run0 true item_ids llm_ids beh).results).llm_summaries.countP
        (fun s => s.target_llm_model_id == id)) = 1
    ∧ ∀ s ∈ (getTestRunSummaryByLLM run0.id run_name
          (executeTestRunBackground table run0 true item_ids llm_ids beh).results).llm_summaries,
        s.target_llm_model_id = id →
        s.total_tests = llm_ids.count id * (fetchItems table item_ids).length := by
  have h1 := runLoop_ok run0.id beh (pairsOf llm_ids (fetchItems table item_ids)) 0
    (by intro i hi; simpa using hok i hi)
  rw [execute_ok_eq table run0 item_ids llm_ids beh hne (by rw [h1])]
  simp only [h1]
  have hM : 0 < (fetchItems table item_ids).length := List.length_pos.2 hne
  have hN : 0 < llm_ids.length := List.length_pos.2 (List.ne_nil_of_mem hid)
  have hlen : (loopResults run0.id beh (pairsOf llm_ids (fetchItems table item_ids)) 0).length
      = llm_ids.length * (fetchItems table item_ids).length := by
    rw [loopResults_length, pairsOf_length]
  have hgrp : (resultsFor id
      (loopResults run0.id beh (pairsOf llm_ids (fetchItems table item_ids)) 0)).length
      = llm_ids.count id * (fetchItems table item_ids).length := by
    rw [length_resultsFor_loopResults, length_filter_pairsOf]
  have hresne : loopResults run0.id beh (pairsOf llm_ids (fetchItems table item_ids)) 0
      ≠ [] := by
    intro h0
    rw [h0] at hlen
    exact absurd hlen.symm (Nat.ne_of_gt (Nat.mul_pos hN hM))
  have hcnt : 0 < llm_ids.count id := List.count_pos_iff.2 hid
  have hgrpne : resultsFor id
      (loopResults run0.id beh (pairsOf llm_ids (fetchItems table item_ids)) 0) ≠ [] := by
    intro h0
    rw [h0] at hgrp
    exact absurd hgrp.symm (Nat.ne_of_gt (Nat.mul_pos hcnt hM))
  obtain ⟨r, hr⟩ := List.exists_mem_of_ne_nil _ hgrpne
  have hr1 : r ∈ loopResults run0.id beh (pairsOf llm_ids (fetchItems table item_ids)) 0 :=
    (List.mem_filter.1 hr).1
  have hr2 : r.target_llm_model_id = id := eq_of_beq (List.mem_filter.1 hr).2
  have hidmem : id ∈ modelIdsInOrder
      (loopResults run0.id beh (pairsOf llm_ids (fetchItems table item_ids)) 0) :=
    (mem_modelIdsInOrder _ id).2 ⟨r, hr1, hr2⟩
  refine ⟨hlen, hgrp, ?_, ?_⟩
  · have hcomp : ((fun s : LLMRunSummary => s.target_llm_model_id == id) ∘ fun i =>
        summarizeModel i
          (loopResults run0.id beh (pairsOf llm_ids (fetchItems table item_ids)) 0))
        = fun i => i == id := rfl
    rw [llm_summaries_eq run0.id run_name _ hresne, List.countP_map, hcomp,
      ← List.count_eq_countP]
    exact List.count_eq_one_of_mem (modelIdsInOrder_nodup _) hidmem
  · intro s hs hsid
    rw [llm_summaries_eq run0.id run_name _ hresne] at hs
    simp only [List.mem_map] at hs
    obtain ⟨i, _, rfl⟩ := hs
    have hi : i = id := hsid
    rw [hi] at *
    exact hgrp

/-- C9 (witness): a run configured with the duplicated model list
`["modelA", "modelA"]` over one input. -/
theorem C9_duplicate_models_witness :
    fetchItems [(1, Json.null)] [1] ≠ []
    ∧ "modelA" ∈ ["modelA", "modelA"]
    ∧ (executeTestRunBackground [(1, Json.null)] (createTestRun 7) true [1]
        ["modelA", "modelA"]
        (fun _ => ⟨CaseOutcome.noContent, ⟨0, 0, 0⟩, none⟩)).results.length = 2
    ∧ ((getTestRunSummaryByLLM 7 none
          (executeTestRunBackground [(1, Json.null)] (createTestRun 7) true [1]
            ["modelA", "modelA"]
            (fun _ => ⟨CaseOutcome.noContent, ⟨0, 0, 0⟩, none⟩)).results).llm_summaries.countP
        (fun s => s.target_llm_model_id == "modelA")) = 1 :=
  ⟨fun h => List.noConfusion h, by simp,
   (C9_duplicate_models [(1, Json.null)] (createTestRun 7) none [1] ["modelA", "modelA"]
      (fun _ => ⟨CaseOutcome.noContent, ⟨0, 0, 0⟩, none⟩) "modelA"
      (fun h => List.noConfusion h) (by simp) (fun _ _ => rfl)).1,
   (C9_duplicate_models [(1, Json.null)] (createTestRun 7) none [1] ["modelA", "modelA"]
      (fun _ => ⟨CaseOutcome.noContent, ⟨0, 0, 0⟩, none⟩) "modelA"
      (fun h => List.noConfusion h) (by simp) (fun _ _ => rfl)).2.2.1⟩

theorem replaceAllFuel_fuel_irrel (pat rep : List Char) :
    ∀ (fuel1 : Nat) (fuel2 : Nat) (s : List Char), s.length ≤ fuel1 → s.length ≤ fuel2 →
      replaceAllFuel pat rep fuel1 s = replaceAllFuel pat rep fuel2 s := by
  intro fuel1
  induction fuel1 with
  | zero =>
    intro fuel2 s h1 _
    have hs : s = [] := List.eq_nil_of_length_eq_zero (Nat.le_zero.1 h1)
    subst hs
    cases fuel2 <;> rfl
  | succ f ih =>
    intro fuel2 s h1 h2
    cases s with
    | nil => cases fuel2 <;> rfl
    | cons c rest =>
      cases fuel2 with
      | zero => exact absurd h2 (by simp)
      | succ f2 =>
        simp only [replaceAllFuel]
        by_cases h : pat ≠ [] ∧ pat <+: (c :: rest)
        · rw [if_pos h, if_pos h]
          congr 1
          have hlp : 1 ≤ pat.length := by
            cases hp : pat with
            | nil => exact absurd hp h.1
            | cons x xs => simp
          apply ih
          · simp only [List.length_drop, List.length_cons] at *
            omega
          · simp only [List.length_drop, List.length_cons] at *
            omega
        · rw [if_neg h, if_neg h]
          congr 1
          apply ih
          · simp only [List.length_cons] at h1
            omega
          · simp only [List.length_cons] at h2
            omega

theorem replaceAllFuel_of_not_infix (pat rep : List Char) :
    ∀ (fuel : Nat) (s : List Char), s.length ≤ fuel → ¬ pat <:+: s →
      replaceAllFuel pat rep fuel s = s := by
  intro fuel
  induction fuel with
  | zero => intro s _ _; rfl
  | succ f ih =>
    intro s h1 h2
    cases s with
    | nil => rfl
    | cons c rest =>
      have hnp : ¬ (pat ≠ [] ∧ pat <+: (c :: rest)) := by
        rintro ⟨-, t, ht⟩
        exact h2 ⟨[], t, by simpa using ht⟩
      simp only [replaceAllFuel]
      rw [if_neg hnp]
      congr 1
      apply ih
      · simp only [List.length_cons] at h1
        omega
      · rintro ⟨s', t', hst⟩
        exact h2 ⟨c :: s', t', by simp [← hst]⟩

theorem replaceAll_of_not_infix (pat rep s : List Char) (h : ¬ pat <:+: s) :
    replaceAll pat rep s = s :=
  replaceAllFuel_of_not_infix pat rep s.length s (le_refl _) h

theorem replaceAllFuel_append (pat rep : List Char) (hpat : pat ≠ []) :
    ∀ (t1 rest : List Char) (fuel : Nat),
      (t1 ++ pat ++ rest).length ≤ fuel →
      (∀ i, i < t1.length → ¬ pat <+: (t1 ++ pat ++ rest).drop i) →
      replaceAllFuel pat rep fuel (t1 ++ pat ++ rest)
        = t1 ++ rep ++ replaceAllFuel pat rep (fuel - (t1.length + pat.length)) rest := by
  intro t1
  induction t1 with
  | nil =>
    intro rest fuel hfuel _
    have hlp : 1 ≤ pat.length := by
      cases hp : pat with
      | nil => exact absurd hp hpat
      | cons x xs => simp
    cases hp : pat with
    | nil => exact absurd hp hpat
    | cons p0 pt =>
      cases fuel with
      | zero =>
        rw [hp] at hfuel
        simp at hfuel
      | succ f =>
        simp only [List.nil_append] at *
        simp only [replaceAllFuel, List.append_eq]
        rw [if_pos ⟨by simp, by rw [← List.cons_append]; exact List.prefix_append _ _⟩]
        rw [← List.cons_append, List.drop_left]
        congr 1
        rw [hp] at hfuel
        simp only [List.length_append, List.length_cons, List.length_nil] at hfuel ⊢
        apply replaceAllFuel_fuel_irrel
        · omega
        · omega
  | cons a t1' ih =>
    intro rest fuel hfuel hocc
    cases fuel with
    | zero =>
      exfalso
      simp [List.length_append] at hfuel
    | succ f =>
      have hstep : (a :: t1') ++ pat ++ rest = a :: (t1' ++ pat ++ rest) := by simp
      rw [hstep]
      simp only [replaceAllFuel]
      rw [if_neg (by
        rintro ⟨-, hp⟩
        refine hocc 0 (by simp) ?_
        rw [List.drop_zero, hstep]
        exact hp)]
      have hocc' : ∀ i, i < t1'.length → ¬ pat <+: (t1' ++ pat ++ rest).drop i := by
        intro i hi
        have := hocc (i + 1) (by simp; omega)
        rw [hstep, List.drop_succ_cons] at this
        exact this
      have hfuel' : (t1' ++ pat ++ rest).length ≤ f := by
        rw [hstep] at hfuel
        simp only [List.length_cons] at hfuel
        omega
      rw [ih rest f hfuel' hocc']
      have e : (f + 1) - ((a :: t1').length + pat.length)
          = f - (t1'.length + pat.length) := by
        simp only [List.length_cons]
        omega
      rw [e]
      simp

theorem replaceAll_append (pat rep : List Char) (hpat : pat ≠ []) (t1 rest : List Char)
    (hocc : ∀ i, i < t1.length → ¬ pat <+: (t1 ++ pat ++ rest).drop i) :
    replaceAll pat rep (t1 ++ pat ++ rest) = t1 ++ rep ++ replaceAll pat rep rest := by
  simp only [replaceAll]
  rw [replaceAllFuel_append pat rep hpat t1 rest _ (le_refl _) hocc]
  have e : (t1 ++ pat ++ rest).length - (t1.length + pat.length) = rest.length := by
    simp only [List.length_append]
    omega
  rw [e]

/-- C10: substituting the mock input replaces EVERY occurrence of the
placeholder token, not only one — a text consisting of two placeholder
occurrences separated by placeholder-free segments becomes the two
segments joined by two copies of the serialized input — and a prompt
text containing no occurrence of the placeholder is passed through
unchanged, without error.  (The side conditions say no occurrence of
the placeholder starts inside a segment, which also rules out overlaps
with the explicit occurrences.) -/
theorem C10_placeholder_replacement (master serialized t1 t2 t3 : List Char) :
    (¬ inputPlaceholder <:+: master → buildFinalPrompt master serialized = master)
    ∧ ((∀ i, i < t1.length →
          ¬ inputPlaceholder <+:
            (t1 ++ inputPlaceholder ++ (t2 ++ inputPlaceholder ++ t3)).drop i) →
        (∀ i, i < t2.length →
          ¬ inputPlaceholder <+: (t2 ++ inputPlaceholder ++ t3).drop i) →
        ¬ inputPlaceholder <:+: t3 →
        buildFinalPrompt (t1 ++ inputPlaceholder ++ (t2 ++ inputPlaceholder ++ t3))
            serialized
          = t1 ++ serialized ++ (t2 ++ serialized ++ t3)) := by
  have hpat : inputPlaceholder ≠ [] := by decide
  constructor
  · intro h
    exact replaceAll_of_not_infix inputPlaceholder serialized master h
  · intro h1 h2 h3
    show replaceAll inputPlaceholder serialized _ = _
    rw [replaceAll_append inputPlaceholder serialized hpat t1
        (t2 ++ inputPlaceholder ++ t3) h1,
      replaceAll_append inputPlaceholder serialized hpat t2 t3 h2,
      replaceAll_of_not_infix inputPlaceholder serialized t3 h3]

/-- C10 (witness): both clauses on concrete strings: "Hi" without the
placeholder is unchanged; "A«ph»B«ph»C" becomes "AJBJC". -/
theorem C10_placeholder_replacement_witness :
    buildFinalPrompt ['H', 'i'] ['J'] = ['H', 'i']
    ∧ buildFinalPrompt (['A'] ++ inputPlaceholder ++ (['B'] ++ inputPlaceholder ++ ['C']))
        ['J']
      = ['A'] ++ ['J'] ++ (['B'] ++ ['J'] ++ ['C']) :=
  ⟨(C10_placeholder_replacement ['H', 'i'] ['J'] [] [] []).1 (by decide),
   (C10_placeholder_replacement [] ['J'] ['A'] ['B'] ['C']).2
      (by decide) (by decide) (by decide)⟩

end JsonLLMTester
